import Mathlib

/-!
Verification development for the bulk keyword-processing pipeline of the
BestMarathon content wizard (React/TypeScript single-page application).

Strings are modelled as `List Char` so that all operations are structurally
recursive and kernel-computable.  JavaScript regular expressions used by the
source are modelled by dedicated scanners that are faithful to the exact
patterns appearing in the code (the patterns are simple enough that lazy and
greedy quantifier behaviour can be implemented directly; comments at each
scanner note why no further backtracking is required for that pattern).

React state setters are modelled as immediate updates applied in program
order (consecutive synchronous setter calls form one observable state
change, matching the render batching of the framework); the asynchronous
pipeline is modelled as a recursive function threading an explicit
application state and emitting an event trace (persisted records and timed
delays).  One closure-capture subtlety of the source is modelled
explicitly: the functional updater that recomputes the completed counter
reads `totalCount` from the closure of the render in which the run was
started, not from the current state, so the worker takes that captured
value as an explicit parameter and `handleStartBulk` passes the pre-run
value (the input form is only reachable from states whose `totalCount` is
0, so the captured value of every real run is 0); the counter is an `Int`
because the resulting arithmetic goes negative.
-/

namespace VietBai

/-- Strings as character lists, for structural recursion. -/
abbrev Str := List Char

/-- The whitespace class of the JavaScript `\s` regex class and of
`String.prototype.trim` (restricted to the code points that can occur in
this application: ASCII whitespace). -/
def jsWhitespace (c : Char) : Bool :=
  c = ' ' || c = '\t' || c = '\n' || c = '\r' || c = '\x0b' || c = '\x0c'

/-- JavaScript line terminators (the characters NOT matched by `.` in a
regex without the `s` flag); U+2028/U+2029 never occur in this code base. -/
def isLineTerm (c : Char) : Bool :=
  c = '\n' || c = '\r'

/-- Case folding as performed by the `i` regex flag, restricted to the
characters occurring in the patterns of this code base (ASCII letters plus
the two non-ASCII letters of the legacy placeholder keyword). -/
def jsLowerChar (c : Char) : Char :=
  if c = 'Ã' then 'ã'
  else if c = 'Œ' then 'œ'
  else c.toLower

/-- Case-insensitive character comparison (regex `i` flag). -/
def ciEq (a b : Char) : Bool :=
  jsLowerChar a = jsLowerChar b

/-- `hasPrefixL t s` is true when `t` is a literal prefix of `s`. -/
def hasPrefixL : Str → Str → Bool
  | [], _ => true
  | _ :: _, [] => false
  | a :: as, b :: bs => a = b && hasPrefixL as bs

/-- First-occurrence split: `splitOnce s t = some (p, q)` when `s = p ++ t ++ q`
and `p` is the shortest such prefix.  This is the search underlying both
`String.prototype.replace` with a string pattern (first occurrence) and
`String.prototype.split`. -/
def splitOnce : Str → Str → Option (Str × Str)
  | s, t =>
    if hasPrefixL t s then some ([], s.drop t.length)
    else
      match s with
      | [] => none
      | c :: cs => (splitOnce cs t).map fun pr => (c :: pr.1, pr.2)

/-- Substring test, via the first-occurrence search (JavaScript
`String.prototype.includes`). -/
def containsSub (s t : Str) : Bool :=
  (splitOnce s t).isSome

/-- JavaScript `s.replace(t, r)` with a string pattern: replace the first
occurrence only.  (No `$`-substitution is performed on `r`; none of the
replacement strings built by this application contain `$` patterns.) -/
def replaceOnce (s t r : Str) : Str :=
  match splitOnce s t with
  | none => s
  | some (p, q) => p ++ r ++ q

/-- Fuelled worker for `replaceAll`. -/
def replaceAllF : ℕ → Str → Str → Str → Str
  | 0, s, _, _ => s
  | fuel + 1, s, t, r =>
    match splitOnce s t with
    | none => s
    | some (p, q) => p ++ r ++ replaceAllF fuel q t r

/-- JavaScript `s.split(t).join(r)` for a non-empty separator `t`: replace
every non-overlapping occurrence, scanning left to right.  The fuel
`s.length` is sufficient because each replaced occurrence consumes at least
one character of `s`. -/
def replaceAll (s t r : Str) : Str :=
  replaceAllF s.length s t r

/-- Maximal whitespace run at the front of a string (greedy `\s*`). -/
def wsRun : Str → Str × Str
  | [] => ([], [])
  | c :: cs =>
    if jsWhitespace c then
      let pr := wsRun cs
      (c :: pr.1, pr.2)
    else ([], c :: cs)

/-- Drop leading JavaScript whitespace. -/
def trimStart (s : Str) : Str :=
  s.dropWhile jsWhitespace

/-- Drop trailing JavaScript whitespace. -/
def trimEnd (s : Str) : Str :=
  (s.reverse.dropWhile jsWhitespace).reverse

/-- JavaScript `String.prototype.trim`. -/
def jsTrim (s : Str) : Str :=
  trimEnd (trimStart s)

/-- JavaScript `s.split('\n')` (always returns at least one segment). -/
def splitOnNl : Str → List Str
  | [] => [[]]
  | c :: cs =>
    let r := splitOnNl cs
    if c = '\n' then [] :: r
    else
      match r with
      | [] => [[c]]
      | h :: t => (c :: h) :: t

/-- Decimal digit character. -/
def digitChar (n : ℕ) : Char :=
  Char.ofNat (48 + n)

/-- Fuelled decimal printer. -/
def natStrGo : ℕ → ℕ → Str
  | 0, _ => []
  | fuel + 1, n =>
    if n < 10 then [digitChar n]
    else natStrGo fuel (n / 10) ++ [digitChar (n % 10)]

/-- Decimal rendering of a natural number, as produced by JavaScript template
interpolation of a number. -/
def natStr (n : ℕ) : Str :=
  natStrGo (n + 1) n

/-! ### Image placeholder scanning

The pipeline extracts image placeholders from the raw stage-4 article with

  `/\[(?:FEATURED_IMAGE_PROMPT|IMAGE_PROMPT|HÌNH ẢNH):\s*(.*?)\]/gi`

(the third alternative is the legacy keyword exactly as it is spelled in the
source file).  The three alternatives start with distinct letters, so at a
fixed position at most one of them can match and alternation order is
irrelevant.  For the suffix `\s*(.*?)\]`: the engine first takes the maximal
whitespace run for `\s*` and then the shortest `(.*?)` (no line terminators)
followed by `]`.  Backtracking `\s*` to a shorter run can never turn a
failure into a success: `]` is not whitespace, so shrinking the whitespace
run only prepends whitespace characters to the candidate group while the
first reachable `]` stays the same, and any line terminator that blocked the
maximal-run attempt still blocks the group.  Hence the maximal-run scan below
is complete for this pattern. -/

/-- Case-insensitive literal match of a keyword, returning the characters of
`s` that were consumed (in their original case) and the rest. -/
def stripCI : Str → Str → Option (Str × Str)
  | [], s => some ([], s)
  | _ :: _, [] => none
  | p :: ps, c :: cs =>
    if ciEq p c then (stripCI ps cs).map fun pr => (c :: pr.1, pr.2)
    else none

/-- The three placeholder keywords of the extraction regex, in source
alternation order.  The third is the legacy keyword as literally present in
the source file (a mojibake rendering of a Vietnamese word). -/
def phKeywordList : List Str :=
  ["FEATURED_IMAGE_PROMPT".data, "IMAGE_PROMPT".data,
   "HÃŒNH áº¢NH".data]

/-- Try the keyword alternatives in order, case-insensitively. -/
def matchKeywordCI : List Str → Str → Option (Str × Str)
  | [], _ => none
  | k :: ks, s =>
    match stripCI k s with
    | some pr => some pr
    | none => matchKeywordCI ks s

/-- Lazy `(.*?)\]`: the shortest run of non-line-terminator characters up to
a closing bracket; `none` when a line terminator or the end of input comes
first. -/
def lazyClose : Str → Option (Str × Str)
  | [] => none
  | c :: cs =>
    if c = ']' then some ([], cs)
    else if isLineTerm c then none
    else (lazyClose cs).map fun pr => (c :: pr.1, pr.2)

/-- Try to match the placeholder regex at the start of `s`; returns
`(fullTag, prompt, rest)` where `fullTag` is the whole matched span (regex
match `m[0]`) and `prompt` is the first capture group (`m[1]`). -/
def matchPlaceholderAt (s : Str) : Option (Str × Str × Str) :=
  match s with
  | '[' :: s1 =>
    match matchKeywordCI phKeywordList s1 with
    | some (kwChars, s2) =>
      match s2 with
      | ':' :: s3 =>
        let pr := wsRun s3
        match lazyClose pr.2 with
        | some (g, rest) =>
          some ('[' :: kwChars ++ ':' :: pr.1 ++ g ++ [']'], g, rest)
        | none => none
      | _ => none
    | none => none
  | _ => none

/-- Fuelled global scan for placeholder matches (regex `g` flag): at each
position try the pattern; after a match resume after its end. -/
def scanPH : ℕ → Str → List (Str × Str)
  | 0, _ => []
  | _ + 1, [] => []
  | fuel + 1, c :: cs =>
    match matchPlaceholderAt (c :: cs) with
    | some (tag, g, rest) => (tag, g) :: scanPH fuel rest
    | none => scanPH fuel cs

/-- All placeholder matches of the raw article, first to last
(`rawArticle.matchAll(imageRegex)` in the source); each element is
`(fullTag, prompt)`. -/
def scanPlaceholders (s : Str) : List (Str × Str) :=
  scanPH s.length s

/-! ### Inline image resolution (App.processNextKeyword, image loop) -/

/-- The markdown substituted for a successfully generated image
(source lines building `markdownImage`): the featured slot gets the fixed
sentinel alt text, an illustration slot gets the original prompt as alt
text; note the exact surrounding newlines of each template. -/
def markdownImage (isFeatured : Bool) (prompt uri : Str) : Str :=
  if isFeatured then
    "\n![FEATURED_IMAGE](".data ++ uri ++ ")\n".data
  else
    "\n\n![".data ++ prompt ++ "](".data ++ uri ++ ")\n".data

/-- Result of the image-resolution loop: the rewritten article, the image
prompts sent to generation (in call order), and the delays slept between
consecutive image calls. -/
structure ImgRes where
  article : Str
  calls : List Str
  waits : List ℕ
deriving DecidableEq

/-- One pass of the image loop over the pre-computed match list: for each
match call generation on its prompt; on success substitute the matched span
by the markdown image (first-occurrence replace), on failure substitute the
empty string; sleep 6000 ms between consecutive calls (not after the
last). -/
def resolveLoop (gen : Str → Option Str) : List (Str × Str) → Str → ImgRes
  | [], art => ⟨art, [], []⟩
  | (tag, prompt) :: ms, art =>
    let isFeatured := containsSub tag "FEATURED_IMAGE_PROMPT".data
    let art1 :=
      match gen prompt with
      | some uri => replaceOnce art tag (markdownImage isFeatured prompt uri)
      | none => replaceOnce art tag []
    let r := resolveLoop gen ms art1
    ⟨r.article, prompt :: r.calls,
      (if ms.isEmpty then [] else [6000]) ++ r.waits⟩

/-- The whole image-resolution step of `processNextKeyword`: scan the raw
article once for placeholders, then run the substitution loop. -/
def resolveImages (gen : Str → Option Str) (rawArticle : Str) : ImgRes :=
  resolveLoop gen (scanPlaceholders rawArticle) rawArticle

/-! ### Image retry policy (geminiService.generateBlogImage)

The remote image call is modelled by an environment function from the call
index (0-based) to the outcome of that call: a response carrying inline
image data, a response with no image part, or a thrown error value.  The
canvas recompression `compressBase64` (a browser DOM operation) is an
abstract parameter `compress`; its behaviour is irrelevant to the retry
policy. -/

/-- Shape of a thrown provider error, with the fields inspected by the
rate-limit test of the source. -/
structure JsError where
  status : Option ℕ := none
  code : Option ℕ := none
  message : Option Str := none

/-- The rate-limit test of the source:
`error.status === 429 || error.code === 429 ||
 (error.message && (error.message.includes('429') || error.message.includes('quota')))`. -/
def isRateLimit (e : JsError) : Bool :=
  e.status = some 429 || e.code = some 429 ||
    (match e.message with
     | some m => containsSub m "429".data || containsSub m "quota".data
     | none => false)

/-- Outcome of one remote image-generation call. -/
inductive GenAttempt where
  | image (mime data : Str)
  | empty
  | threw (e : JsError)

/-- Whether a call outcome is a thrown rate-limit error. -/
def attemptRL : GenAttempt → Bool
  | .threw e => isRateLimit e
  | _ => false

/-- The data URI assembled from an inline-image response part:
`data:${mimeType};base64,${data}`. -/
def buildDataUri (mime data : Str) : Str :=
  "data:".data ++ mime ++ ";base64,".data ++ data

/-- Result of the retry wrapper: the returned value (never a thrown error),
the backoff delays slept, and the number of generation calls made. -/
structure GenRes where
  result : Option Str
  waits : List ℕ
  tries : ℕ
deriving DecidableEq

/-- The retry loop of `generateBlogImage` (`while attempt < maxRetries`,
`maxRetries = 5`): `i` is the number of rate-limited calls so far (the
`attempt` variable, which equals the call index since every other outcome
returns), and the fuel starts at 5 so the structure mirrors the loop bound.
A response with image data returns the recompressed data URI; a response
without image data returns null; a thrown non-rate-limit error returns null
immediately; a thrown rate-limit error sleeps `5000 * 2 ^ (attempt - 1)` ms
and retries while fewer than 5 attempts were made, else returns null. -/
def genGo (compress : Str → Str) (call : ℕ → GenAttempt) : ℕ → ℕ → GenRes
  | 0, _ => ⟨none, [], 0⟩
  | fuel + 1, i =>
    match call i with
    | .image mime data => ⟨some (compress (buildDataUri mime data)), [], 1⟩
    | .empty => ⟨none, [], 1⟩
    | .threw e =>
      if isRateLimit e then
        if i + 1 < 5 then
          let r := genGo compress call fuel (i + 1)
          ⟨r.result, 5000 * 2 ^ i :: r.waits, r.tries + 1⟩
        else ⟨none, [], 1⟩
      else ⟨none, [], 1⟩

/-- `generateBlogImage`, as a function of the recompression step and the
sequence of call outcomes. -/
def generateBlogImage (compress : Str → Str) (call : ℕ → GenAttempt) : GenRes :=
  genGo compress call 5 0

/-! ### Pipeline orchestrator (App.handleStartBulk / App.processNextKeyword)

The four text stages are modelled by environment functions from the keyword
to either a thrown error (stringified) or the produced text.  Each stage of
the source runs inside the single conversational session opened for the
current keyword (`resetSession` is called before stage 1, and stage 1
initializes the session), so indexing the stage outcome by the keyword is
faithful for in-pipeline calls.  Image generation inside an item is the
`Option`-valued `gen` function: it never throws (claim C3), so only the
text stages can reach the catch block of `processNextKeyword`. -/

/-- Pipeline status (types.ts `StepStatus`). -/
inductive StepStatus where
  | IDLE
  | LOADING
  | COMPLETE
  | ERROR
deriving DecidableEq

/-- Output language (types.ts `OutputLanguage`). -/
inductive OutputLanguage where
  | vi
  | en
deriving DecidableEq

/-- A stored article record (types.ts `HistoryItem`). -/
structure HistoryItem where
  id : Str
  keyword : Str
  content : Str
  timestamp : ℕ
  language : OutputLanguage
deriving DecidableEq

/-- The component state touched by the bulk pipeline (the React `useState`
fields of App relevant to the claims). -/
structure AppState where
  status : StepStatus
  queue : List Str
  completedCount : ℤ
  totalCount : ℕ
  currentKeyword : Str
  history : List HistoryItem
deriving DecidableEq

/-- The all-idle initial component state. -/
def emptyApp : AppState :=
  ⟨.IDLE, [], 0, 0, [], []⟩

/-- Environment of one run: outcomes of the four text stages per keyword,
the image generator, the id generator of the history store (indexed by the
number of prior saves in the run) and the clock value used for record
timestamps. -/
structure Oracle where
  step1 : Str → Except Str Str
  step2 : Str → Except Str Str
  step3 : Str → Except Str Str
  step4 : Str → Except Str Str
  imgGen : Str → Option Str
  freshId : ℕ → Str
  now : ℕ

/-- Processing of a single keyword inside the `try` block: the four text
stages in order (any thrown error aborts the item), then image resolution
(which never throws); produces the final article content. -/
def processItem (o : Oracle) (kw : Str) : Except Str Str := do
  let _ ← o.step1 kw
  let _ ← o.step2 kw
  let _ ← o.step3 kw
  let raw ← o.step4 kw
  pure (resolveImages o.imgGen raw).article

/-- Boolean success test for an item. -/
def itemOk (o : Oracle) (kw : Str) : Bool :=
  match processItem o kw with
  | .ok _ => true
  | .error _ => false

/-- The record persisted on success (source: `newItem` with
`id: ""`, replaced by a fresh id inside `saveHistoryItem`). -/
def successItem (o : Oracle) (idx : ℕ) (kw art : Str) (lang : OutputLanguage) :
    HistoryItem :=
  ⟨o.freshId idx, kw, art, o.now, lang⟩

/-- The record persisted on failure (source: `errorItem`): keyword suffixed
with the failure marker, content carrying the stringified error, same
language. -/
def failureItem (o : Oracle) (idx : ℕ) (kw err : Str) (lang : OutputLanguage) :
    HistoryItem :=
  ⟨o.freshId idx, kw ++ " (FAILED)".data, "Error processing: ".data ++ err,
   o.now, lang⟩

/-- Observable pipeline events: a record persisted to the history store, or
a timed delay. -/
inductive RunEv where
  | save (item : HistoryItem)
  | wait (ms : ℕ)
deriving DecidableEq

/-- The recursive queue worker `processNextKeyword(remainingQueue,
selectedLang)`.  State setters are applied immediately in program order;
consecutive synchronous setters form one observable state, so the returned
trace contains one `AppState` per render boundary: the state after popping
the head (`setCurrentKeyword` / `setQueue` / the counter recomputation),
the state after persisting the record, on success the state after
`setCompletedCount(prev + 1)`, and on the empty queue the completed state.
The updater `setCompletedCount(prev => totalCount - remainingQueue.length)`
reads `totalCount` from the render closure in which the whole run executes,
not from the current state: that captured value is the explicit
`capturedTotal` parameter, fixed for the entire recursion.  The event list
records each persisted record and each inter-item delay (3000 ms after a
success, 2000 ms after a failure). -/
def processNextKeyword (o : Oracle) (lang : OutputLanguage) (capturedTotal : ℤ) :
    List Str → AppState → ℕ → AppState × List AppState × List RunEv
  | [], st, _ =>
    let stz := { st with status := .COMPLETE, currentKeyword := [] }
    (stz, [stz], [])
  | kw :: nq, st, idCtr =>
    let st1 := { st with
      currentKeyword := kw
      queue := nq
      completedCount := capturedTotal - ((nq.length : ℤ) + 1) }
    match processItem o kw with
    | .ok art =>
      let item := successItem o idCtr kw art lang
      let st2 := { st1 with history := item :: st1.history }
      let st3 := { st2 with completedCount := st2.completedCount + 1 }
      let r := processNextKeyword o lang capturedTotal nq st3 (idCtr + 1)
      (r.1, st1 :: st2 :: st3 :: r.2.1, .save item :: .wait 3000 :: r.2.2)
    | .error e =>
      let item := failureItem o idCtr kw e lang
      let st2 := { st1 with history := item :: st1.history }
      let r := processNextKeyword o lang capturedTotal nq st2 (idCtr + 1)
      (r.1, st1 :: st2 :: r.2.1, .save item :: .wait 2000 :: r.2.2)

/-- The keyword list derived from the textarea input
(`bulkInput.split('\n').map(k => k.trim()).filter(k => k.length > 0)`). -/
def startKeywords (bulkInput : Str) : List Str :=
  ((splitOnNl bulkInput).map jsTrim).filter fun k => decide (0 < k.length)

/-- `handleStartBulk`: derive the keyword list; if it is empty do nothing
(`none`); otherwise initialize the run state (queue, totals, loading
status) and start the queue worker.  The worker closure captures the
render-time `totalCount`, which is the pre-run value `st.totalCount` (the
`setTotalCount(keywords.length)` issued here only affects later renders,
never the running closure); the input form is only reachable from states
whose `totalCount` is 0, so the captured value of every real run is 0.
The returned trace is headed by the initialized state. -/
def handleStartBulk (o : Oracle) (lang : OutputLanguage) (bulkInput : Str)
    (st : AppState) : Option (AppState × List AppState × List RunEv) :=
  let keywords := startKeywords bulkInput
  if keywords.isEmpty then none
  else
    let st1 := { st with
      queue := keywords
      totalCount := keywords.length
      completedCount := 0
      status := .LOADING }
    let r := processNextKeyword o lang (st.totalCount : ℤ) keywords st1 0
    some (r.1, st1 :: r.2.1, r.2.2)

/-! ### Field extraction and body cleaning (App.parseArticleData) -/

/-- Match of `/<label>\s*(.*)/` (first occurrence, both quantifiers greedy
with nothing after them, so no backtracking arises): find the first literal
occurrence of the label, skip the maximal whitespace run (which may cross
line breaks), take the rest of that line, and trim it (`match[1].trim()`). -/
def metaField (label content : Str) : Option Str :=
  (splitOnce content label).map fun pr =>
    jsTrim ((wsRun pr.2).2.takeWhile fun c => !(isLineTerm c))

/-- Opening marker of the metadata block (the regex up to its `\n`). -/
def metaOpenMark : Str :=
  "========== META DATA ==========\n".data

/-- Closing marker of the metadata block. -/
def metaCloseMark : Str :=
  "=============================".data

/-- Removal of the first `/========== META DATA ==========\n([\s\S]*?)=...=/`
match: the span from the first opening marker through the first closing
marker after it.  (If the first opening marker has no closing marker after
it, no later opening marker has one either, so the whole regex fails and the
content is unchanged.) -/
def removeMetaBlock (content : Str) : Str :=
  match splitOnce content metaOpenMark with
  | none => content
  | some (pre, rest) =>
    match splitOnce rest metaCloseMark with
    | none => content
    | some (_, post) => pre ++ post

/-- Fuelled case-insensitive global removal of a literal token (regex with
the `gi` flags and an empty replacement): scanning left to right, a match is
skipped and scanning resumes after it. -/
def ciRemoveAllF (tok : Str) : ℕ → Str → Str
  | 0, s => s
  | fuel + 1, s =>
    match s with
    | [] => []
    | c :: cs =>
      match stripCI tok s with
      | some (_, rest) => ciRemoveAllF tok fuel rest
      | none => c :: ciRemoveAllF tok fuel cs

/-- Case-insensitive global removal of a literal token. -/
def ciRemoveAll (tok s : Str) : Str :=
  ciRemoveAllF tok s.length s

/-- Case-sensitive literal keyword alternatives, as in the cleanup regex
`/\[(?:FEATURED_IMAGE_PROMPT|IMAGE_PROMPT|HÌNH ẢNH):.*?\]/g` (no `i` flag
here, unlike the extraction regex; also no `\s*`). -/
def matchKeywordCS : List Str → Str → Option Str
  | [], _ => none
  | k :: ks, s =>
    if hasPrefixL k s then some (s.drop k.length)
    else matchKeywordCS ks s

/-- Try to match the cleanup placeholder pattern at the start of `s`,
returning the rest after the match. -/
def matchPhRemovalAt (s : Str) : Option Str :=
  match s with
  | '[' :: s1 =>
    match matchKeywordCS phKeywordList s1 with
    | some s2 =>
      match s2 with
      | ':' :: s3 => (lazyClose s3).map fun pr => pr.2
      | _ => none
    | none => none
  | _ => none

/-- Fuelled global removal of cleanup placeholder matches. -/
def removePlaceholdersF : ℕ → Str → Str
  | 0, s => s
  | fuel + 1, s =>
    match s with
    | [] => []
    | c :: cs =>
      match matchPhRemovalAt s with
      | some rest => removePlaceholdersF fuel rest
      | none => c :: removePlaceholdersF fuel cs

/-- Global removal of cleanup placeholder matches. -/
def removePlaceholders (s : Str) : Str :=
  removePlaceholdersF s.length s

/-- The first Vietnamese section delimiter line, with the exact characters
present in the source file. -/
def sectionMarkA : Str :=
  "========== Ná»˜I DUNG BÃ€I VIáº¾T ==========".data

/-- The second Vietnamese section delimiter line, with the exact characters
present in the source file. -/
def sectionMarkB : Str :=
  "========== Káº¾T THÃšC BÃ€I VIáº¾T ==========".data

/-- Generalized single-character split (JavaScript `s.split(sep)` for a
one-character separator). -/
def splitOnChar (sep : Char) : Str → List Str
  | [] => [[]]
  | c :: cs =>
    let r := splitOnChar sep cs
    if c = sep then [] :: r
    else
      match r with
      | [] => [[c]]
      | h :: t => (c :: h) :: t

/-- Lower-case a character as `String.prototype.toLowerCase` does (ASCII
range; the keywords fed to `slugify` in the witnesses are ASCII). -/
def jsToLower (c : Char) : Char :=
  c.toLower

/-- Is the character in the class `[a-z0-9]`. -/
def isSlugChar (c : Char) : Bool :=
  ('a' ≤ c && c ≤ 'z') || ('0' ≤ c && c ≤ '9')

/-- Fuelled replacement of `[^a-z0-9]+` runs by a single dash. -/
def dashRunsF : ℕ → Str → Str
  | 0, s => s
  | fuel + 1, s =>
    match s with
    | [] => []
    | c :: cs =>
      if isSlugChar c then c :: dashRunsF fuel cs
      else '-' :: dashRunsF fuel (cs.dropWhile fun d => !isSlugChar d)

/-- The default slug
(`keyword.toLowerCase().replace(/[^a-z0-9]+/g, '-')`). -/
def slugify (keyword : Str) : Str :=
  let low := keyword.map jsToLower
  dashRunsF low.length low

/-- The parsed fields of an article. -/
structure ParsedArticle where
  title : Str
  metaDesc : Str
  slug : Str
  cleanBody : Str
deriving DecidableEq

/-- `parseArticleData`: extract `Meta Title:` / `Meta Description:` /
`Slug:` values (defaulting to the keyword, the empty string, and the
slugified keyword respectively), and produce the clean body by removing the
metadata block, trimming, removing the two section delimiter lines (first
occurrence each), the `[INTRO]` / `[BODY]` / `[CONCLUSION]` / `**INTRO**`
labels (global, case-insensitive), all placeholder tags (global,
case-sensitive), and trimming again. -/
def parseArticleData (markdownContent keyword : Str) : ParsedArticle :=
  let title := (metaField "Meta Title:".data markdownContent).getD keyword
  let metaDesc := (metaField "Meta Description:".data markdownContent).getD []
  let slug := (metaField "Slug:".data markdownContent).getD (slugify keyword)
  let cb := jsTrim (removeMetaBlock markdownContent)
  let cb := replaceOnce cb sectionMarkA []
  let cb := replaceOnce cb sectionMarkB []
  let cb := ciRemoveAll "[INTRO]".data cb
  let cb := ciRemoveAll "[BODY]".data cb
  let cb := ciRemoveAll "[CONCLUSION]".data cb
  let cb := ciRemoveAll "**INTRO**".data cb
  let cb := removePlaceholders cb
  ⟨title, metaDesc, slug, jsTrim cb⟩

/-! ### Embedded image references

Both exports extract embedded images with

  `/!\[(.*?)\]\((data:image\/.*?;base64,.*?)\)/g`.

Each lazy group is resolved by seeking the first occurrence of its following
literal over non-line-terminator characters.  Committing to the first
occurrence at each stage is complete for this pattern: if a later stage
fails, the blocking line terminator or missing literal also blocks every
longer choice of an earlier lazy group, because a longer choice only extends
the span that must stay free of line terminators past the same blocking
position. -/

/-- An extracted image reference: the full matched span, the alt text
(group 1) and the data URI (group 2). -/
structure ImageRef where
  fullTag : Str
  alt : Str
  uri : Str
deriving DecidableEq

/-- Seek the first occurrence of the literal `stop` reachable over
non-line-terminator characters; return the skipped characters and the rest
after the literal. -/
def lazySeek (stop : Str) : Str → Option (Str × Str)
  | [] => if hasPrefixL stop [] then some ([], []) else none
  | c :: cs =>
    if hasPrefixL stop (c :: cs) then some ([], (c :: cs).drop stop.length)
    else if isLineTerm c then none
    else (lazySeek stop cs).map fun pr => (c :: pr.1, pr.2)

/-- Try to match the image-reference pattern at the start of `s`. -/
def matchImageRefAt (s : Str) : Option (ImageRef × Str) :=
  match s with
  | '!' :: '[' :: s1 =>
    match lazySeek "](data:image/".data s1 with
    | some (alt, s2) =>
      match lazySeek ";base64,".data s2 with
      | some (m1, s3) =>
        match lazySeek ")".data s3 with
        | some (m2, s4) =>
          let uri := "data:image/".data ++ m1 ++ ";base64,".data ++ m2
          some (⟨"![".data ++ alt ++ "](".data ++ uri ++ ")".data, alt, uri⟩, s4)
        | none => none
      | none => none
    | none => none
  | _ => none

/-- Fuelled global scan for image references. -/
def scanIR : ℕ → Str → List ImageRef
  | 0, _ => []
  | _ + 1, [] => []
  | fuel + 1, c :: cs =>
    match matchImageRefAt (c :: cs) with
    | some (r, rest) => r :: scanIR fuel rest
    | none => scanIR fuel cs

/-- All embedded image references of a body, first to last
(`cleanBody.matchAll(imageRegex)` in both export handlers). -/
def findImageRefs (s : Str) : List ImageRef :=
  scanIR s.length s

/-- File extension inferred from the declared MIME subtype
(`ext = 'jpg'; if png then 'png'; if webp then 'webp'`). -/
def extOf (uri : Str) : Str :=
  let e := if containsSub uri "image/png".data then "png".data else "jpg".data
  if containsSub uri "image/webp".data then "webp".data else e

/-- The text written as the file body (`base64Data.split(',')[1]`). -/
def b64Content (uri : Str) : Str :=
  (splitOnChar ',' uri).getD 1 []

/-! ### Package export (App.handleDownloadPackage) -/

/-- Numbered image file name (`image-${i + 1}.${ext}`). -/
def imageFileName (i : ℕ) (uri : Str) : Str :=
  "image-".data ++ natStr (i + 1) ++ ".".data ++ extOf uri

/-- The markdown reference substituted for an extracted image
(`![${altText}](images/${filename})`). -/
def newRefFor (i : ℕ) (r : ImageRef) : Str :=
  "![".data ++ r.alt ++ "](images/".data ++ imageFileName i r.uri ++ ")".data

/-- The export loop over the enumerated matches: write each image file into
the `images/` folder of the archive and rewrite every occurrence of the
matched span (`split(fullTag).join(newTag)`) to the relative path. -/
def pkgLoop : List (ℕ × ImageRef) → Str → List (Str × Str) × Str
  | [], content => ([], content)
  | (i, r) :: ms, content =>
    let file := ("images/".data ++ imageFileName i r.uri, b64Content r.uri)
    let content1 := replaceAll content r.fullTag (newRefFor i r)
    let rest := pkgLoop ms content1
    (file :: rest.1, rest.2)

/-- Result of the package export: the image entries of the archive
(path, base64 body), the rewritten markdown, and the names of the markdown
file and the archive. -/
structure PkgRes where
  imageFiles : List (Str × Str)
  markdown : Str
  mdName : Str
  zipName : Str
deriving DecidableEq

/-- `handleDownloadPackage`: parse, extract the image references of the
clean body, write numbered image files and rewrite the markdown, and bundle
`<slug>.md` with the images into `<slug>-package.zip`. -/
def handleDownloadPackage (rawContent keyword : Str) : PkgRes :=
  let pa := parseArticleData rawContent keyword
  let lp := pkgLoop (List.enumFrom 0 (findImageRefs pa.cleanBody)) pa.cleanBody
  ⟨lp.1, lp.2, pa.slug ++ ".md".data, pa.slug ++ "-package.zip".data⟩

/-! ### WXR export (App.handleDownloadWxrXml)

Browser-bound operations are abstract parameters of the environment: the
canvas recompression `compressIfNeeded`, the markdown renderer
`marked.parse`, the random base post id, and the formatted dates. -/

/-- Environment of one WXR export. -/
structure WxrEnv where
  postId : ℕ
  postDate : Str
  pubDate : Str
  year : Str
  month : Str
  compress : Str → Str
  mdToHtml : Str → Str

/-- The HTML figure substituted for a non-featured image
(source `htmlFigure`). -/
def htmlFigureXml (attachmentId : ℕ) (compressed alt : Str) : Str :=
  "\n<!-- wp:image \x7b\"id\":".data ++ natStr attachmentId ++
  "\x7d -->\n<figure class=\"wp-block-image\"><img src=\"".data ++ compressed ++
  "\" alt=\"".data ++ alt ++ "\" class=\"wp-image-".data ++ natStr attachmentId ++
  "\"/><figcaption>".data ++ alt ++
  "</figcaption></figure>\n<!-- /wp:image -->".data

/-- One attachment `<item>` element (the template appended to
`attachmentItemsXml`, emitted for featured and non-featured images
alike). -/
def attachmentItemXml (env : WxrEnv) (alt compressed : Str)
    (attachmentId : ℕ) : Str :=
  "\n    <item>\n\t\t<title><![CDATA[".data ++ alt ++
  "]]></title>\n\t\t<link></link>\n\t\t<pubDate>".data ++ env.pubDate ++
  "</pubDate>\n\t\t<dc:creator><![CDATA[admin]]></dc:creator>\n\t\t<guid isPermaLink=\"false\"></guid>\n\t\t<description></description>\n\t\t<content:encoded><![CDATA[".data ++
  compressed ++
  "]]></content:encoded>\n\t\t<excerpt:encoded><![CDATA[".data ++ alt ++
  "]]></excerpt:encoded>\n\t\t<wp:post_id>".data ++ natStr attachmentId ++
  "</wp:post_id>\n\t\t<wp:post_date>".data ++ env.postDate ++
  "</wp:post_date>\n\t\t<wp:comment_status>open</wp:comment_status>\n\t\t<wp:ping_status>open</wp:ping_status>\n\t\t<wp:post_name><![CDATA[image-".data ++
  natStr attachmentId ++
  "]]></wp:post_name>\n\t\t<wp:status>inherit</wp:status>\n\t\t<wp:post_parent>".data ++
  natStr env.postId ++
  "</wp:post_parent>\n\t\t<wp:menu_order>0</wp:menu_order>\n\t\t<wp:post_type>attachment</wp:post_type>\n\t\t<wp:post_password></wp:post_password>\n\t\t<wp:is_sticky>0</wp:is_sticky>\n\t\t<wp:attachment_url><![CDATA[image-".data ++
  natStr attachmentId ++
  ".jpg]]></wp:attachment_url>\n\t\t<wp:postmeta>\n\t\t\t<wp:meta_key>_wp_attached_file</wp:meta_key>\n\t\t\t<wp:meta_value><![CDATA[".data ++
  env.year ++ "/".data ++ env.month ++ "/image-".data ++ natStr attachmentId ++
  ".jpg]]></wp:meta_value>\n\t\t</wp:postmeta>\n        <wp:postmeta>\n            <wp:meta_key>_wp_attachment_image_alt</wp:meta_key>\n            <wp:meta_value><![CDATA[".data ++
  alt ++ "]]></wp:meta_value>\n        </wp:postmeta>\n\t</item>".data

/-- The thumbnail postmeta block emitted when `featuredImageId` is a
non-empty string (JavaScript truthiness of the interpolated
conditional). -/
def thumbnailBlockXml (featuredImageId : Str) : Str :=
  "\n        <wp:postmeta>\n            <wp:meta_key>_thumbnail_id</wp:meta_key>\n            <wp:meta_value><![CDATA[".data ++
  featuredImageId ++
  "]]></wp:meta_value>\n        </wp:postmeta>".data

/-- Category nicename
(`safeCategory.toLowerCase().replace(/\s+/g, '-')`), fuelled worker. -/
def catNiceF : ℕ → Str → Str
  | 0, s => s
  | fuel + 1, s =>
    match s with
    | [] => []
    | c :: cs =>
      if jsWhitespace c then '-' :: catNiceF fuel (cs.dropWhile jsWhitespace)
      else c :: catNiceF fuel cs

/-- Category nicename. -/
def catNice (category : Str) : Str :=
  let low := category.map jsToLower
  catNiceF low.length low

/-- The image-processing loop of the WXR export over the enumerated
matches, threading `(optimizedBody, featuredImageId, attachment chunks)`:
the featured image (sentinel alt text, compared case-sensitively) sets the
thumbnail id and is removed from the body (`split(fullTag).join('')`);
any other image is rewritten to an HTML figure; both append one attachment
`<item>` chunk. -/
def wxrLoop (env : WxrEnv) :
    List (ℕ × ImageRef) → Str × Str × List Str → Str × Str × List Str
  | [], acc => acc
  | (i, r) :: ms, acc =>
    let compressed := env.compress r.uri
    let attachmentId := env.postId + i + 1
    let isFeatured := r.alt = "FEATURED_IMAGE".data
    let body1 :=
      if isFeatured then replaceAll acc.1 r.fullTag []
      else replaceAll acc.1 r.fullTag (htmlFigureXml attachmentId compressed r.alt)
    let fid1 := if isFeatured then natStr attachmentId else acc.2.1
    wxrLoop env ms
      (body1, fid1, acc.2.2 ++ [attachmentItemXml env r.alt compressed attachmentId])

/-- The final WXR document (`xmlContent` template), from the already
computed pieces. -/
def wxrXml (env : WxrEnv) (title metaDesc slug safeCategory thumbnailBlock
    htmlContent attachmentItemsXml : Str) : Str :=
  "<?xml version=\"1.0\" encoding=\"UTF-8\" ?>\n<rss version=\"2.0\"\n\txmlns:excerpt=\"http://wordpress.org/export/1.2/excerpt/\"\n\txmlns:content=\"http://purl.org/rss/1.0/modules/content/\"\n\txmlns:wfw=\"http://wellformedweb.org/CommentAPI/\"\n\txmlns:dc=\"http://purl.org/dc/elements/1.1/\"\n\txmlns:wp=\"http://wordpress.org/export/1.2/\"\n>\n<channel>\n\t<title>BestMarathon Export</title>\n\t<pubDate>".data ++
  env.pubDate ++
  "</pubDate>\n\t<language>vi</language>\n\t<wp:wxr_version>1.2</wp:wxr_version>\n\t<item>\n\t\t<title><![CDATA[".data ++
  title ++
  "]]></title>\n\t\t<link></link>\n\t\t<pubDate>".data ++ env.pubDate ++
  "</pubDate>\n\t\t<dc:creator><![CDATA[admin]]></dc:creator>\n\t\t<guid isPermaLink=\"false\"></guid>\n\t\t<description></description>\n\t\t<content:encoded><![CDATA[".data ++
  htmlContent ++
  "]]></content:encoded>\n\t\t<excerpt:encoded><![CDATA[]]></excerpt:encoded>\n\t\t<wp:post_id>".data ++
  natStr env.postId ++
  "</wp:post_id>\n\t\t<wp:post_date>".data ++ env.postDate ++
  "</wp:post_date>\n\t\t<wp:comment_status>open</wp:comment_status>\n\t\t<wp:ping_status>open</wp:ping_status>\n\t\t<wp:post_name><![CDATA[".data ++
  slug ++
  "]]></wp:post_name>\n\t\t<wp:status>draft</wp:status>\n\t\t<wp:post_parent>0</wp:post_parent>\n\t\t<wp:menu_order>0</wp:menu_order>\n\t\t<wp:post_type>post</wp:post_type>\n\t\t<wp:post_password></wp:post_password>\n\t\t<wp:is_sticky>0</wp:is_sticky>\n        <category domain=\"category\" nicename=\"".data ++
  catNice safeCategory ++
  "\"><![CDATA[".data ++ safeCategory ++
  "]]></category>\n        ".data ++ thumbnailBlock ++
  "\n        <!-- SEO METADATA -->\n        <wp:postmeta>\n            <wp:meta_key>_yoast_wpseo_title</wp:meta_key>\n            <wp:meta_value><![CDATA[".data ++
  title ++
  "]]></wp:meta_value>\n        </wp:postmeta>\n        <wp:postmeta>\n            <wp:meta_key>_yoast_wpseo_metadesc</wp:meta_key>\n            <wp:meta_value><![CDATA[".data ++
  metaDesc ++
  "]]></wp:meta_value>\n        </wp:postmeta>\n        <wp:postmeta>\n            <wp:meta_key>rank_math_title</wp:meta_key>\n            <wp:meta_value><![CDATA[".data ++
  title ++
  "]]></wp:meta_value>\n        </wp:postmeta>\n        <wp:postmeta>\n            <wp:meta_key>rank_math_description</wp:meta_key>\n            <wp:meta_value><![CDATA[".data ++
  metaDesc ++
  "]]></wp:meta_value>\n        </wp:postmeta>\n\t</item>\n    ".data ++
  attachmentItemsXml ++
  "\n</channel>\n</rss>".data

/-- Result of the WXR export: the rewritten body, the thumbnail id (empty
string when the featured slot was never matched), the attachment `<item>`
chunks in emission order, the conditional thumbnail postmeta block, the
rendered HTML body, the whole document, and the download file name. -/
structure WxrRes where
  optimizedBody : Str
  featuredImageId : Str
  attachmentChunks : List Str
  thumbnailBlock : Str
  htmlContent : Str
  xml : Str
  fileName : Str

/-- `handleDownloadWxrXml`: parse, process each embedded image into an
attachment item (removing the featured image from the body, rewriting the
others to figures), and assemble the WXR document. -/
def handleDownloadWxrXml (env : WxrEnv) (rawContent keyword categoryInput : Str) :
    WxrRes :=
  let pa := parseArticleData rawContent keyword
  let safeCategory :=
    if (jsTrim categoryInput).isEmpty then "General".data else jsTrim categoryInput
  let lp := wxrLoop env (List.enumFrom 0 (findImageRefs pa.cleanBody))
    (pa.cleanBody, [], [])
  let thumbnailBlock :=
    if lp.2.1.isEmpty then [] else thumbnailBlockXml lp.2.1
  let htmlContent := env.mdToHtml lp.1
  let xml := wxrXml env pa.title pa.metaDesc pa.slug safeCategory thumbnailBlock
    htmlContent lp.2.2.flatten
  ⟨lp.1, lp.2.1, lp.2.2, thumbnailBlock, htmlContent, xml,
   (if pa.slug.isEmpty then "article".data else pa.slug) ++ ".xml".data⟩

/-! ### Concrete run environments used by the example parts of the claims -/

/-- Stage outcome of the two-keyword example: every stage succeeds for
keyword `A`, stage 1 throws for every other keyword. -/
def exStages (kw : Str) : Except Str Str :=
  if kw = "A".data then Except.ok "seed".data else Except.error "Error: boom".data

/-- Oracle of the example runs: text stages as in `exStages`, no article
placeholders, image generation always failing (irrelevant to these runs). -/
def exOracle : Oracle :=
  { step1 := exStages
    step2 := fun _ => Except.ok "ideas".data
    step3 := fun _ => Except.ok "outline".data
    step4 := fun _ => Except.ok "hello article".data
    imgGen := fun _ => none
    freshId := fun n => natStr n
    now := 7 }

/-- The default triple used to read a run result out of the `Option`. -/
def noRun : AppState × List AppState × List RunEv :=
  ⟨emptyApp, [], []⟩

/-- The example run of claim C1: keyword list `A`, `B`, stages succeed for
`A` and throw for `B`. -/
def exRunC1 : AppState × List AppState × List RunEv :=
  (handleStartBulk exOracle .vi "A\nB".data emptyApp).getD noRun

/-- The example run of claim C5: the single keyword `A`. -/
def exRunC5 : AppState × List AppState × List RunEv :=
  (handleStartBulk exOracle .vi "A".data emptyApp).getD noRun

/-- Image generator of the claim C2 example: a data URI for both prompts. -/
def exGenC2 : Str → Option Str := fun p =>
  if p = "x".data then some "data:image/png;base64,AA".data
  else if p = "y".data then some "data:image/png;base64,BB".data
  else none

/-- Raw stage-4 output of the claim C2 example. -/
def exRawC2 : Str :=
  "[FEATURED_IMAGE_PROMPT: x]\nHello\n[IMAGE_PROMPT: y]".data

/-- The final content asserted by claim C2 (with the generated URIs filled
into its `data:...` ellipses). -/
def claimedC2 : Str :=
  "![FEATURED_IMAGE](data:image/png;base64,AA)\nHello\n\n\n![y](data:image/png;base64,BB)\n".data

/-- The content the code actually produces on the claim C2 example. -/
def actualC2 : Str :=
  "\n![FEATURED_IMAGE](data:image/png;base64,AA)\n\nHello\n\n\n![y](data:image/png;base64,BB)\n".data

/-- Mixed-case article of the case-insensitivity part of claim C6. -/
def exMixedC6 : Str :=
  "[featured_image_prompt: a]t[Image_Prompt: b]".data

/-- Single-placeholder article of the claim C7 witness. -/
def exRawC7 : Str :=
  "pre [IMAGE_PROMPT: z] post".data

/-- Call outcomes of the claim C3 witness: every call throws a status-429
error. -/
def exCallRL : ℕ → GenAttempt := fun _ =>
  .threw { status := some 429 }

/-- WXR environment of the claim C8 witness. -/
def exEnvC8 : WxrEnv :=
  { postId := 100
    postDate := "2026-10-11 00:00:00".data
    pubDate := "Sun, 11 Oct 2026 00:00:00 GMT".data
    year := "2026".data
    month := "10".data
    compress := id
    mdToHtml := id }

/-- Zero-image article of the claim C8 witness. -/
def exRawC8a : Str :=
  "Just text, no images.".data

/-- Featured-image-only article of the claim C8 witness. -/
def exRawC8b : Str :=
  "Before ![FEATURED_IMAGE](data:image/png;base64,AB) After".data

/-! ### Package-export decomposition predicates (claim C9) -/

/-- The raw clean body rebuilt from an alternating decomposition: each
element contributes its matched span followed by the trailing text. -/
def tailRaw : List (ImageRef × Str) → Str
  | [] => []
  | (r, t) :: rest => r.fullTag ++ t ++ tailRaw rest

/-- The rewritten markdown rebuilt from the same decomposition, with the
reference of index `k` pointing at its numbered file. -/
def tailRw : ℕ → List (ImageRef × Str) → Str
  | _, [] => []
  | k, (r, t) :: rest => newRefFor k r ++ t ++ tailRw (k + 1) rest

/-- The archive entries produced for the references, from index `k` on. -/
def filesFrom (k : ℕ) (refs : List ImageRef) : List (Str × Str) :=
  (List.enumFrom k refs).map fun p =>
    ("images/".data ++ imageFileName p.1 p.2.uri, b64Content p.2.uri)

/-- Non-interference conditions of the rewrite chain: processing the
references in order, each matched span occurs in the current content
exactly at its decomposition position and nowhere later.  `pre` is the
already rewritten prefix. -/
def pkgOk : ℕ → Str → List (ImageRef × Str) → Bool
  | _, _, [] => true
  | k, pre, (r, t) :: rest =>
    decide (splitOnce (pre ++ r.fullTag ++ (t ++ tailRaw rest)) r.fullTag
        = some (pre, t ++ tailRaw rest)) &&
      !containsSub (t ++ tailRaw rest) r.fullTag &&
      pkgOk (k + 1) (pre ++ newRefFor k r ++ t) rest

/-- First image reference of the claim C9 witness. -/
def exRefC9a : ImageRef :=
  ⟨"![a](data:image/png;base64,QQ)".data, "a".data,
   "data:image/png;base64,QQ".data⟩

/-- Second image reference of the claim C9 witness. -/
def exRefC9b : ImageRef :=
  ⟨"![b](data:image/jpeg;base64,RR)".data, "b".data,
   "data:image/jpeg;base64,RR".data⟩

/-- Decomposition tail of the claim C9 witness. -/
def exPartsC9 : List (ImageRef × Str) :=
  [(exRefC9a, " mid ".data), (exRefC9b, " end".data)]

/-- Raw article of the claim C9 witness. -/
def exRawC9 : Str :=
  "T1 ![a](data:image/png;base64,QQ) mid ![b](data:image/jpeg;base64,RR) end".data

/-- Events a run emits for one enumerated keyword: the persisted record
(success or synthetic failure) and the inter-item delay (3000 ms after a
success, 2000 ms after a failure). -/
def runEvsFor (o : Oracle) (lang : OutputLanguage) : ℕ × Str → List RunEv :=
  fun p =>
    match processItem o p.2 with
    | .ok art => [.save (successItem o p.1 p.2 art lang), .wait 3000]
    | .error e => [.save (failureItem o p.1 p.2 e lang), .wait 2000]

/-! ### General string lemmas -/

theorem hasPrefixL_eq_append {t s : Str} (h : hasPrefixL t s = true) :
    s = t ++ s.drop t.length := by
  induction t generalizing s with
  | nil => simp
  | cons a as ih =>
    cases s with
    | nil => simp [hasPrefixL] at h
    | cons b bs =>
      simp only [hasPrefixL, Bool.and_eq_true, decide_eq_true_eq] at h
      obtain ⟨rfl, h2⟩ := h
      simpa using ih h2

theorem splitOnce_eq_append {s t p q : Str} (h : splitOnce s t = some (p, q)) :
    s = p ++ t ++ q := by
  induction s generalizing p with
  | nil =>
    rw [splitOnce] at h
    cases t with
    | nil =>
      simp [hasPrefixL] at h
      obtain ⟨rfl, rfl⟩ := h
      rfl
    | cons a as => simp [hasPrefixL] at h
  | cons c cs ih =>
    rw [splitOnce] at h
    by_cases hp : hasPrefixL t (c :: cs) = true
    · rw [if_pos hp] at h
      simp only [Option.some.injEq, Prod.mk.injEq] at h
      obtain ⟨rfl, rfl⟩ := h
      simpa using hasPrefixL_eq_append hp
    · rw [if_neg hp] at h
      cases hsp : splitOnce cs t with
      | none => rw [hsp] at h; simp at h
      | some pr =>
        obtain ⟨p1, q1⟩ := pr
        rw [hsp] at h
        simp only [Option.map_some', Option.some.injEq, Prod.mk.injEq] at h
        obtain ⟨rfl, rfl⟩ := h
        simpa using ih hsp

theorem splitOnce_of_not_contains {s t : Str} (h : containsSub s t = false) :
    splitOnce s t = none := by
  unfold containsSub at h
  exact Option.not_isSome_iff_eq_none.mp (by simp [h])

theorem replaceAllF_of_none {t r : Str} (fuel : ℕ) {q : Str}
    (h : splitOnce q t = none) : replaceAllF fuel q t r = q := by
  cases fuel with
  | zero => rfl
  | succ f => rw [replaceAllF, h]

theorem replaceAll_of_single {s t p q r : Str}
    (h1 : splitOnce s t = some (p, q)) (h2 : containsSub q t = false) :
    replaceAll s t r = p ++ r ++ q := by
  cases hs : s with
  | nil =>
    rw [hs] at h1
    rw [splitOnce] at h1
    cases t with
    | nil =>
      simp [hasPrefixL] at h1
      obtain ⟨rfl, rfl⟩ := h1
      simp [containsSub, splitOnce, hasPrefixL] at h2
    | cons a as => simp [hasPrefixL] at h1
  | cons c cs =>
    rw [← hs]
    have hlen : s.length = cs.length + 1 := by rw [hs]; simp
    rw [replaceAll, hlen]
    simp only [replaceAllF, h1]
    rw [replaceAllF_of_none cs.length (splitOnce_of_not_contains h2)]

theorem replaceOnce_of_split {s t p q r : Str}
    (h : splitOnce s t = some (p, q)) : replaceOnce s t r = p ++ r ++ q := by
  rw [replaceOnce, h]

/-! ### Trim lemmas -/

theorem dropWhile_append_last {p : Char → Bool} {a : Char} (h : p a = false) :
    ∀ xs : Str, ∃ ys, List.dropWhile p (xs ++ [a]) = ys ++ [a] := by
  intro xs
  induction xs with
  | nil => exact ⟨[], by simp [List.dropWhile_cons, h]⟩
  | cons x xs ih =>
    by_cases hx : p x = true
    · obtain ⟨ys, hys⟩ := ih
      exact ⟨ys, by simp [List.dropWhile_cons, hx, hys]⟩
    · exact ⟨x :: xs, by simp [List.dropWhile_cons, hx]⟩

theorem trimStart_cons_of_false {c : Char} {cs : Str}
    (h : jsWhitespace c = false) : trimStart (c :: cs) = c :: cs := by
  simp [trimStart, List.dropWhile_cons, h]

theorem trimStart_idem (s : Str) : trimStart (trimStart s) = trimStart s :=
  List.dropWhile_idempotent jsWhitespace s

theorem trimEnd_idem (s : Str) : trimEnd (trimEnd s) = trimEnd s := by
  simp [trimEnd, List.reverse_reverse, List.dropWhile_idempotent]

theorem trimStart_trimEnd_trimStart (s : Str) :
    trimStart (trimEnd (trimStart s)) = trimEnd (trimStart s) := by
  cases ht : trimStart s with
  | nil => simp [trimEnd, trimStart]
  | cons c cs =>
    have hfix : trimStart (c :: cs) = c :: cs := by
      rw [← ht, trimStart_idem]
    have hc : jsWhitespace c = false := by
      by_contra hcc
      rw [trimStart, List.dropWhile_cons] at hfix
      simp only [eq_true_of_ne_false (by simpa using hcc), if_true] at hfix
      have := (List.dropWhile_sublist (l := cs) jsWhitespace).length_le
      rw [hfix] at this
      simp at this
    obtain ⟨ys, hys⟩ := dropWhile_append_last hc cs.reverse
    have : trimEnd (c :: cs) = c :: ys.reverse := by
      rw [trimEnd]
      simp only [List.reverse_cons, hys]
      simp
    rw [this, trimStart_cons_of_false hc]

theorem jsTrim_idem (s : Str) : jsTrim (jsTrim s) = jsTrim s := by
  rw [jsTrim, jsTrim, trimStart_trimEnd_trimStart, trimEnd_idem]

/-! ### Image-loop lemmas -/

theorem resolveLoop_calls (gen : Str → Option Str) :
    ∀ ms art, (resolveLoop gen ms art).calls = ms.map Prod.snd := by
  intro ms
  induction ms with
  | nil => intro art; rfl
  | cons m rest ih =>
    intro art
    obtain ⟨tag, prompt⟩ := m
    cases hg : gen prompt <;> simp [resolveLoop, hg, ih]

/-! ### Claim C2 -/

/-- C2: the claim asserts the final content of the example is exactly
`![FEATURED_IMAGE](data:...)\nHello\n\n\n![y](data:...)\n`; the code
produces a different string (the featured template adds a leading newline
and a newline of its own after the image, before the newline already in the
article), so the claim as stated is false at the stated input. -/
theorem c2_counterexample : (resolveImages exGenC2 exRawC2).article ≠ claimedC2 := by
  decide

/-- C2 (amended): on the example input the final article content is exactly
`\n![FEATURED_IMAGE](data:...)\n\nHello\n\n\n![y](data:...)\n`, and exactly
one 6-second pause is inserted, between the two image calls. -/
theorem c2_exact_substitution :
    (resolveImages exGenC2 exRawC2).article = actualC2 ∧
    (resolveImages exGenC2 exRawC2).waits = [6000] := by
  decide

/-! ### Claim C6 -/

/-- C6: the image loop makes exactly one generation call per scanned
placeholder, on the placeholder prompts in left-to-right order of
appearance (first two conjuncts, for every article and every generator);
placeholder matching is case-insensitive over both the featured pattern and
the generic pattern (third conjunct: a lower-case featured tag and a
mixed-case illustration tag are both matched, in order). -/
theorem c6_image_calls :
    (∀ gen raw, (resolveImages gen raw).calls = (scanPlaceholders raw).map Prod.snd) ∧
    (∀ gen raw, (resolveImages gen raw).calls.length = (scanPlaceholders raw).length) ∧
    scanPlaceholders exMixedC6 =
      [("[featured_image_prompt: a]".data, "a".data),
       ("[Image_Prompt: b]".data, "b".data)] :=
  ⟨fun gen raw => resolveLoop_calls gen (scanPlaceholders raw) raw,
   fun gen raw => by rw [resolveImages, resolveLoop_calls]; simp,
   by decide⟩

/-! ### Claim C7 -/

/-- C7: a failure substitution replaces exactly the matched span by the
empty string and leaves the surrounding text unchanged.  First conjunct:
the first-occurrence replacement used by the loop decomposes the article as
`p ++ tag ++ q` and returns `p ++ r ++ q` (so with `r = []`, exactly the
span is dropped).  Second conjunct, at pipeline level: for an article whose
scan finds one placeholder and whose generation fails, the resolved article
is the surrounding text with just the span removed. -/
theorem c7_failure_frame :
    (∀ s t p q r : Str, splitOnce s t = some (p, q) →
      s = p ++ t ++ q ∧ replaceOnce s t r = p ++ r ++ q) ∧
    (∀ gen raw tag prompt p q, scanPlaceholders raw = [(tag, prompt)] →
      gen prompt = none → splitOnce raw tag = some (p, q) →
      raw = p ++ tag ++ q ∧ (resolveImages gen raw).article = p ++ q) := by
  constructor
  · intro s t p q r h
    exact ⟨splitOnce_eq_append h, replaceOnce_of_split h⟩
  · intro gen raw tag prompt p q hscan hgen hsplit
    refine ⟨splitOnce_eq_append hsplit, ?_⟩
    rw [resolveImages, hscan]
    simp only [resolveLoop, hgen]
    rw [replaceOnce_of_split hsplit]
    simp

/-- Witness for C7 at a concrete single-placeholder article whose image
generation fails. -/
theorem c7_failure_frame_witness :
    scanPlaceholders exRawC7 = [("[IMAGE_PROMPT: z]".data, "z".data)] ∧
    (resolveImages (fun _ => none) exRawC7).article = "pre  post".data :=
  ⟨by decide,
   (c7_failure_frame.2 (fun _ => none) exRawC7 "[IMAGE_PROMPT: z]".data
     "z".data "pre ".data " post".data (by decide) rfl (by decide)).2⟩

/-! ### Claim C10 -/

/-- C10: the keyword list of a run consists of the newline-separated lines
of the input, trimmed, with empty lines dropped: every processed keyword is
non-empty and trim-fixed (first conjunct); the list is a subsequence of the
trimmed lines, in order (second conjunct); an input all of whose lines are
blank starts no run (third conjunct); and on a concrete mixed input the
list is exactly the non-blank trimmed lines in order (fourth conjunct). -/
theorem c10_keyword_list :
    (∀ input k, k ∈ startKeywords input → 0 < k.length ∧ jsTrim k = k) ∧
    (∀ input, List.Sublist (startKeywords input) ((splitOnNl input).map jsTrim)) ∧
    (∀ o lang input st, (∀ l ∈ splitOnNl input, jsTrim l = []) →
      handleStartBulk o lang input st = none) ∧
    startKeywords "  A \n\n B\n \n".data = ["A".data, "B".data] := by
  refine ⟨?_, ?_, ?_, by decide⟩
  · intro input k hk
    rw [startKeywords, List.mem_filter] at hk
    obtain ⟨hmem, hlen⟩ := hk
    refine ⟨by simpa using hlen, ?_⟩
    rw [List.mem_map] at hmem
    obtain ⟨l, _, rfl⟩ := hmem
    exact jsTrim_idem l
  · intro input
    exact List.filter_sublist _
  · intro o lang input st hblank
    have hnil : startKeywords input = [] := by
      rw [startKeywords, List.filter_eq_nil_iff]
      intro k hk
      rw [List.mem_map] at hk
      obtain ⟨l, hl, rfl⟩ := hk
      rw [hblank l hl]
      simp
    rw [handleStartBulk, hnil]
    simp

/-- Witness for C10: a blank-lines-only input starts no run. -/
theorem c10_keyword_list_witness :
    (∀ l ∈ splitOnNl "  \n \n".data, jsTrim l = []) ∧
    handleStartBulk exOracle .vi "  \n \n".data emptyApp = none :=
  ⟨by decide,
   c10_keyword_list.2.2.1 exOracle .vi "  \n \n".data emptyApp (by decide)⟩

/-! ### Queue-worker lemmas -/

theorem pnk_status (o : Oracle) (lang : OutputLanguage) (T0 : ℤ) :
    ∀ rq st c, (processNextKeyword o lang T0 rq st c).1.status = StepStatus.COMPLETE := by
  intro rq
  induction rq with
  | nil => intro st c; rfl
  | cons kw nq ih =>
    intro st c
    cases hp : processItem o kw with
    | ok art => simp [processNextKeyword, hp, ih]
    | error e => simp [processNextKeyword, hp, ih]

theorem pnk_total (o : Oracle) (lang : OutputLanguage) (T0 : ℤ) :
    ∀ rq st c, (processNextKeyword o lang T0 rq st c).1.totalCount = st.totalCount := by
  intro rq
  induction rq with
  | nil => intro st c; rfl
  | cons kw nq ih =>
    intro st c
    cases hp : processItem o kw with
    | ok art => simp [processNextKeyword, hp, ih]
    | error e => simp [processNextKeyword, hp, ih]

theorem pnk_hist (o : Oracle) (lang : OutputLanguage) (T0 : ℤ) :
    ∀ rq st c, (processNextKeyword o lang T0 rq st c).1.history.length
      = st.history.length + rq.length := by
  intro rq
  induction rq with
  | nil => intro st c; rfl
  | cons kw nq ih =>
    intro st c
    cases hp : processItem o kw with
    | ok art => simp [processNextKeyword, hp, ih]; omega
    | error e => simp [processNextKeyword, hp, ih]; omega

theorem pnk_completed (o : Oracle) (lang : OutputLanguage) (T0 : ℤ) :
    ∀ ks kw st c, (processNextKeyword o lang T0 (ks ++ [kw]) st c).1.completedCount
      = T0 - 1 + (if itemOk o kw then 1 else 0) := by
  intro ks
  induction ks with
  | nil =>
    intro kw st c
    cases hp : processItem o kw with
    | ok art => simp [processNextKeyword, hp, itemOk]
    | error e => simp [processNextKeyword, hp, itemOk]
  | cons k ks ih =>
    intro kw st c
    cases hp : processItem o k with
    | ok art => simpa [processNextKeyword, hp] using ih kw _ _
    | error e => simpa [processNextKeyword, hp] using ih kw _ _

theorem pnk_events (o : Oracle) (lang : OutputLanguage) (T0 : ℤ) :
    ∀ rq st c, (processNextKeyword o lang T0 rq st c).2.2
      = (List.enumFrom c rq).flatMap (runEvsFor o lang) := by
  intro rq
  induction rq with
  | nil => intro st c; rfl
  | cons kw nq ih =>
    intro st c
    rw [List.enumFrom_cons]
    cases hp : processItem o kw with
    | ok art => simp [processNextKeyword, hp, runEvsFor, ih]
    | error e => simp [processNextKeyword, hp, runEvsFor, ih]

theorem pnk_bounds (o : Oracle) (lang : OutputLanguage) (T0 : ℤ) :
    ∀ rq st c, st.queue = rq →
      (rq = [] → T0 - 1 ≤ st.completedCount ∧ st.completedCount ≤ T0) →
      ∀ s ∈ (processNextKeyword o lang T0 rq st c).2.1,
        T0 - 1 ≤ s.completedCount + s.queue.length ∧
        s.completedCount + s.queue.length ≤ T0 := by
  intro rq
  induction rq with
  | nil =>
    intro st c hq hbase s hs
    simp only [processNextKeyword, List.mem_singleton] at hs
    subst hs
    obtain ⟨h1, h2⟩ := hbase rfl
    simp [hq]
    omega
  | cons kw nq ih =>
    intro st c hq hbase s hs
    cases hp : processItem o kw with
    | ok art =>
      simp only [processNextKeyword, hp, List.mem_cons] at hs
      rcases hs with rfl | rfl | rfl | hs
      · simp; omega
      · simp; omega
      · simp; omega
      · refine ih _ _ rfl ?_ s hs
        intro hnil
        subst hnil
        constructor <;> simp
    | error e =>
      simp only [processNextKeyword, hp, List.mem_cons] at hs
      rcases hs with rfl | rfl | hs
      · simp; omega
      · simp; omega
      · refine ih _ _ rfl ?_ s hs
        intro hnil
        subst hnil
        constructor <;> simp

/-! ### Claim C1 -/

/-- C1: the claim asserts that on the keyword list `A`, `B` where the text
stages succeed for `A` and throw for `B`, the run reaches `Completed` with
`completedCount == 2`.  The code reaches `Completed` but with
`completedCount = -1`: the counter updater reads the `totalCount` captured
by the render closure when the run started (0 from the idle screen), so
each pop sets the counter to `0 - remaining`; the success path adds 1 and
the failure path adds nothing, leaving `-1` after the trailing failure. -/
theorem c1_counterexample :
    exRunC1.1.status = StepStatus.COMPLETE ∧ exRunC1.1.totalCount = 2 ∧
    exRunC1.1.completedCount = -1 ∧ exRunC1.1.completedCount ≠ 2 := by
  decide

/-- C1 (amended): every started run reaches `Completed` having persisted
one record per keyword, but the completed counter does not track processed
items: each pop recomputes it from the `totalCount` captured at run start
(the pre-run `st.totalCount`, which is 0 for every run started from the
idle screen), and only a success increments it, so the run ends with
`completedCount = capturedTotal` when the final keyword succeeds and
`capturedTotal - 1` when it fails.  On the example (`A` succeeds, the
final `B` throws, run started from the idle state) the run completes with
`completedCount = -1`, `totalCount = 2`, and the history holding the
normal record for `A` and the `B (FAILED)` record carrying the error
text. -/
theorem c1_amended_progress :
    (∀ o lang input st r ks kw, handleStartBulk o lang input st = some r →
      startKeywords input = ks ++ [kw] →
      r.1.status = StepStatus.COMPLETE ∧
      r.1.totalCount = ks.length + 1 ∧
      r.1.history.length = st.history.length + (ks.length + 1) ∧
      r.1.completedCount
        = (st.totalCount : ℤ) - 1 + (if itemOk o kw then 1 else 0)) ∧
    (exRunC1.1.status = StepStatus.COMPLETE ∧
     exRunC1.1.completedCount = -1 ∧
     exRunC1.1.history.map (fun h => (h.keyword, h.content)) =
       [("B (FAILED)".data, "Error processing: Error: boom".data),
        ("A".data, "hello article".data)]) := by
  constructor
  · intro o lang input st r ks kw hrun hks
    simp only [handleStartBulk, hks] at hrun
    have hne : (ks ++ [kw]).isEmpty = false := by
      cases ks <;> rfl
    rw [hne] at hrun
    simp only [Bool.false_eq_true, if_false, Option.some.injEq] at hrun
    subst hrun
    refine ⟨pnk_status o lang _ _ _ _, ?_, ?_, ?_⟩
    · rw [pnk_total]; simp
    · rw [pnk_hist]; simp
    · rw [pnk_completed]
  · exact ⟨by decide, by decide, by decide⟩

/-- Witness for the general part of C1 (amended), at the example run. -/
theorem c1_amended_progress_witness :
    handleStartBulk exOracle .vi "A\nB".data emptyApp = some exRunC1 ∧
    exRunC1.1.status = StepStatus.COMPLETE ∧
    exRunC1.1.totalCount = 2 ∧
    exRunC1.1.completedCount
      = (emptyApp.totalCount : ℤ) - 1
          + (if itemOk exOracle "B".data then 1 else 0) := by
  have h := c1_amended_progress.1 exOracle .vi "A\nB".data emptyApp exRunC1
    ["A".data] "B".data (by decide) (by decide)
  exact ⟨by decide, h.1, h.2.1, h.2.2.2⟩

/-! ### Claim C4 -/

/-- C4: for every keyword whose text-stage processing throws, the run
persists the synthetic failure record (keyword suffixed with the failure
marker, content carrying the stringified error, the selected language) and
then waits the fixed 2-second delay before continuing; the whole event
stream of a run is one persisted record plus one delay per keyword, in
queue order, and the run always ends `Completed` - no failure aborts the
batch.  (Image resolution returns `Option` and never throws, so only the
text stages reach the catch block.) -/
theorem c4_failure_records :
    ∀ o lang input st r, handleStartBulk o lang input st = some r →
      r.2.2 = (List.enumFrom 0 (startKeywords input)).flatMap (runEvsFor o lang) ∧
      r.1.status = StepStatus.COMPLETE ∧
      (∀ kw e, kw ∈ startKeywords input → processItem o kw = Except.error e →
        ∃ i pre post, r.2.2
          = pre ++ (RunEv.save (failureItem o i kw e lang) :: RunEv.wait 2000 :: post)) := by
  intro o lang input st r hrun
  simp only [handleStartBulk] at hrun
  cases hke : (startKeywords input).isEmpty with
  | true => rw [hke] at hrun; simp at hrun
  | false =>
    rw [hke] at hrun
    simp only [Bool.false_eq_true, if_false, Option.some.injEq] at hrun
    subst hrun
    refine ⟨pnk_events o lang _ _ _ _, pnk_status o lang _ _ _ _, ?_⟩
    intro kw e hmem herr
    obtain ⟨l1, l2, hsplit⟩ := List.append_of_mem hmem
    refine ⟨l1.length, (List.enumFrom 0 l1).flatMap (runEvsFor o lang),
      (List.enumFrom (l1.length + 1) l2).flatMap (runEvsFor o lang), ?_⟩
    rw [pnk_events, hsplit, List.enumFrom_append, List.flatMap_append,
      List.enumFrom_cons, List.flatMap_cons]
    have hev : runEvsFor o lang (0 + l1.length, kw)
        = [RunEv.save (failureItem o l1.length kw e lang), RunEv.wait 2000] := by
      simp [runEvsFor, herr]
    rw [hev]
    simp

/-- Witness for C4 at the example run (`B` throws, its failure record and
2-second delay appear in the event stream, and the run completes). -/
theorem c4_failure_records_witness :
    handleStartBulk exOracle .vi "A\nB".data emptyApp = some exRunC1 ∧
    processItem exOracle "B".data = Except.error "Error: boom".data ∧
    exRunC1.1.status = StepStatus.COMPLETE ∧
    (∃ i pre post, exRunC1.2.2
      = pre ++ (RunEv.save (failureItem exOracle i "B".data "Error: boom".data .vi)
          :: RunEv.wait 2000 :: post)) := by
  have h := c4_failure_records exOracle .vi "A\nB".data emptyApp exRunC1 (by decide)
  exact ⟨by decide, rfl, h.2.1,
    h.2.2 "B".data "Error: boom".data (by decide) rfl⟩

/-! ### Claim C5 -/

/-- C5: the claim asserts `completed + remaining == total` at every point
during a run.  It fails at every state after the first pop: popping the
head sets the queue to the tail and recomputes the counter from the
`totalCount` captured at run start (0 from the idle screen), so the sum
drops to the captured value or one below it.  In the single-keyword
example run the trace contains a state with `completed = -1`,
`remaining = 0`, `total = 1`. -/
theorem c5_counterexample :
    ¬ ∀ s ∈ exRunC5.2.1,
        s.completedCount + s.queue.length = (s.totalCount : ℤ) := by
  decide

/-- C5 (amended): `completed + remaining = total` holds at the initial
state of a run (head of the trace); at every later observable state,
`capturedTotal - 1 ≤ completed + remaining ≤ capturedTotal`, where
`capturedTotal` is the pre-run `totalCount` captured by the worker closure
(0 for every run started from the idle screen) - the sum sits at the
captured value after a success and one below it while an item is in
flight or after a failure, never at `total`. -/
theorem c5_amended_invariant :
    ∀ o lang input st r, handleStartBulk o lang input st = some r →
      (∀ s, r.2.1.head? = some s →
        s.completedCount + s.queue.length = (s.totalCount : ℤ)) ∧
      (∀ s ∈ r.2.1.tail,
        (st.totalCount : ℤ) - 1 ≤ s.completedCount + s.queue.length ∧
        s.completedCount + s.queue.length ≤ (st.totalCount : ℤ)) := by
  intro o lang input st r hrun
  simp only [handleStartBulk] at hrun
  cases hke : (startKeywords input).isEmpty with
  | true => rw [hke] at hrun; simp at hrun
  | false =>
    rw [hke] at hrun
    simp only [Bool.false_eq_true, if_false, Option.some.injEq] at hrun
    subst hrun
    constructor
    · intro s hs
      simp only [List.head?_cons, Option.some.injEq] at hs
      subst hs
      simp
    · intro s hs
      simp only [List.tail_cons] at hs
      refine pnk_bounds o lang (st.totalCount : ℤ) (startKeywords input) _ 0
        rfl ?_ s hs
      intro hnil
      rw [hnil] at hke
      simp at hke

/-- Witness for C5 (amended), at the single-keyword example run. -/
theorem c5_amended_invariant_witness :
    handleStartBulk exOracle .vi "A".data emptyApp = some exRunC5 ∧
    (∀ s ∈ exRunC5.2.1.tail,
      (emptyApp.totalCount : ℤ) - 1 ≤ s.completedCount + s.queue.length ∧
      s.completedCount + s.queue.length ≤ (emptyApp.totalCount : ℤ)) := by
  have h := c5_amended_invariant exOracle .vi "A".data emptyApp exRunC5 (by decide)
  exact ⟨by decide, h.2⟩

/-! ### Claim C3 -/

theorem c3_leaf (compress : Str → Str) (call : ℕ → GenAttempt) (g : GenRes)
    (k : ℕ)
    (hg : generateBlogImage compress call = g)
    (hk : k ≤ 4)
    (htries : g.tries = k + 1)
    (hwaits : g.waits = (List.range k).map fun j => 5000 * 2 ^ j)
    (hRL : ∀ j, j < k → attemptRL (call j) = true)
    (hres : ∀ e, call k = .threw e → isRateLimit e = false → g.result = none)
    (hfull : attemptRL (call k) = true →
      g.result = none ∧ g.waits = [5000, 10000, 20000, 40000]) :
    (generateBlogImage compress call).tries ≤ 5 ∧
    (generateBlogImage compress call).waits
      = (List.range ((generateBlogImage compress call).tries - 1)).map
          (fun j => 5000 * 2 ^ j) ∧
    (∀ j, j + 1 < (generateBlogImage compress call).tries →
      attemptRL (call j) = true) ∧
    (∀ j e, j < (generateBlogImage compress call).tries →
      call j = .threw e → isRateLimit e = false →
      (generateBlogImage compress call).result = none ∧
      (generateBlogImage compress call).tries = j + 1) ∧
    ((∀ j, j < 5 → attemptRL (call j) = true) →
      (generateBlogImage compress call).result = none ∧
      (generateBlogImage compress call).waits
        = [5000, 10000, 20000, 40000]) := by
  rw [hg]
  refine ⟨by omega, ?_, ?_, ?_, ?_⟩
  · rw [hwaits, htries]
    simp
  · intro j hj
    rw [htries] at hj
    exact hRL j (by omega)
  · intro j e hj hc hrl
    rw [htries] at hj
    rcases Nat.lt_succ_iff_lt_or_eq.mp hj with hlt | rfl
    · have hj2 := hRL j hlt
      rw [hc] at hj2
      simp [attemptRL, hrl] at hj2
    · exact ⟨hres e hc hrl, htries⟩
  · intro hall
    exact hfull (hall k (by omega))

/-- C3: the image-retry wrapper makes at most 5 generation calls; the
backoff waits form the prefix `5000 * 2 ^ j` of `[5s, 10s, 20s, 40s]`
matching the number of retried calls; every call that is followed by
another one failed with a rate-limit signal (status or code 429, or a
message containing `429` or `quota`); a call that throws a non-rate-limit
error makes it the last call and makes the wrapper return null; exhausting
all 5 rate-limited attempts returns null after exactly the waits 5s, 10s,
20s, 40s.  The wrapper is a total function into `Option`, so no error is
ever propagated to the caller. -/
theorem c3_retry_policy (compress : Str → Str) (call : ℕ → GenAttempt) :
    (generateBlogImage compress call).tries ≤ 5 ∧
    (generateBlogImage compress call).waits
      = (List.range ((generateBlogImage compress call).tries - 1)).map
          (fun j => 5000 * 2 ^ j) ∧
    (∀ j, j + 1 < (generateBlogImage compress call).tries →
      attemptRL (call j) = true) ∧
    (∀ j e, j < (generateBlogImage compress call).tries →
      call j = .threw e → isRateLimit e = false →
      (generateBlogImage compress call).result = none ∧
      (generateBlogImage compress call).tries = j + 1) ∧
    ((∀ j, j < 5 → attemptRL (call j) = true) →
      (generateBlogImage compress call).result = none ∧
      (generateBlogImage compress call).waits
        = [5000, 10000, 20000, 40000]) := by
  rcases h0 : call 0 with ⟨m0, d0⟩ | _ | e0
  · exact c3_leaf compress call ⟨some (compress (buildDataUri m0 d0)), [], 1⟩ 0
      (by simp [generateBlogImage, genGo, h0]) (by omega) rfl (by simp [List.range_succ])
      (fun j hj => absurd hj (by omega))
      (fun e hc hrl => by rw [h0] at hc; simp at hc)
      (fun hA => by rw [h0] at hA; simp [attemptRL] at hA)
  · exact c3_leaf compress call ⟨none, [], 1⟩ 0
      (by simp [generateBlogImage, genGo, h0]) (by omega) rfl (by simp [List.range_succ])
      (fun j hj => absurd hj (by omega))
      (fun _ _ _ => rfl)
      (fun hA => by rw [h0] at hA; simp [attemptRL] at hA)
  · cases hr0 : isRateLimit e0 with
    | false =>
      exact c3_leaf compress call ⟨none, [], 1⟩ 0
        (by simp [generateBlogImage, genGo, h0, hr0]) (by omega) rfl (by simp [List.range_succ])
        (fun j hj => absurd hj (by omega))
        (fun _ _ _ => rfl)
        (fun hA => by rw [h0] at hA; simp [attemptRL, hr0] at hA)
    | true =>
      rcases h1 : call 1 with ⟨m1, d1⟩ | _ | e1
      · exact c3_leaf compress call
          ⟨some (compress (buildDataUri m1 d1)), [5000], 2⟩ 1
          (by simp [generateBlogImage, genGo, h0, hr0, h1]) (by omega) rfl
          (by simp [List.range_succ])
          (by intro j hj; interval_cases j; simp [attemptRL, h0, hr0])
          (fun e hc hrl => by rw [h1] at hc; simp at hc)
          (fun hA => by rw [h1] at hA; simp [attemptRL] at hA)
      · exact c3_leaf compress call ⟨none, [5000], 2⟩ 1
          (by simp [generateBlogImage, genGo, h0, hr0, h1]) (by omega) rfl
          (by simp [List.range_succ])
          (by intro j hj; interval_cases j; simp [attemptRL, h0, hr0])
          (fun _ _ _ => rfl)
          (fun hA => by rw [h1] at hA; simp [attemptRL] at hA)
      · cases hr1 : isRateLimit e1 with
        | false =>
          exact c3_leaf compress call ⟨none, [5000], 2⟩ 1
            (by simp [generateBlogImage, genGo, h0, hr0, h1, hr1]) (by omega)
            rfl (by simp [List.range_succ])
            (by intro j hj; interval_cases j; simp [attemptRL, h0, hr0])
            (fun _ _ _ => rfl)
            (fun hA => by rw [h1] at hA; simp [attemptRL, hr1] at hA)
        | true =>
          rcases h2 : call 2 with ⟨m2, d2⟩ | _ | e2
          · exact c3_leaf compress call
              ⟨some (compress (buildDataUri m2 d2)), [5000, 10000], 3⟩ 2
              (by simp [generateBlogImage, genGo, h0, hr0, h1, hr1, h2])
              (by omega) rfl (by simp [List.range_succ])
              (by intro j hj; interval_cases j <;>
                simp [attemptRL, h0, hr0, h1, hr1])
              (fun e hc hrl => by rw [h2] at hc; simp at hc)
              (fun hA => by rw [h2] at hA; simp [attemptRL] at hA)
          · exact c3_leaf compress call ⟨none, [5000, 10000], 3⟩ 2
              (by simp [generateBlogImage, genGo, h0, hr0, h1, hr1, h2])
              (by omega) rfl (by simp [List.range_succ])
              (by intro j hj; interval_cases j <;>
                simp [attemptRL, h0, hr0, h1, hr1])
              (fun _ _ _ => rfl)
              (fun hA => by rw [h2] at hA; simp [attemptRL] at hA)
          · cases hr2 : isRateLimit e2 with
            | false =>
              exact c3_leaf compress call ⟨none, [5000, 10000], 3⟩ 2
                (by simp [generateBlogImage, genGo, h0, hr0, h1, hr1, h2, hr2])
                (by omega) rfl (by simp [List.range_succ])
                (by intro j hj; interval_cases j <;>
                  simp [attemptRL, h0, hr0, h1, hr1])
                (fun _ _ _ => rfl)
                (fun hA => by rw [h2] at hA; simp [attemptRL, hr2] at hA)
            | true =>
              rcases h3 : call 3 with ⟨m3, d3⟩ | _ | e3
              · exact c3_leaf compress call
                  ⟨some (compress (buildDataUri m3 d3)),
                   [5000, 10000, 20000], 4⟩ 3
                  (by simp [generateBlogImage, genGo, h0, hr0, h1, hr1, h2,
                    hr2, h3])
                  (by omega) rfl (by simp [List.range_succ])
                  (by intro j hj; interval_cases j <;>
                    simp [attemptRL, h0, hr0, h1, hr1, h2, hr2])
                  (fun e hc hrl => by rw [h3] at hc; simp at hc)
                  (fun hA => by rw [h3] at hA; simp [attemptRL] at hA)
              · exact c3_leaf compress call ⟨none, [5000, 10000, 20000], 4⟩ 3
                  (by simp [generateBlogImage, genGo, h0, hr0, h1, hr1, h2,
                    hr2, h3])
                  (by omega) rfl (by simp [List.range_succ])
                  (by intro j hj; interval_cases j <;>
                    simp [attemptRL, h0, hr0, h1, hr1, h2, hr2])
                  (fun _ _ _ => rfl)
                  (fun hA => by rw [h3] at hA; simp [attemptRL] at hA)
              · cases hr3 : isRateLimit e3 with
                | false =>
                  exact c3_leaf compress call
                    ⟨none, [5000, 10000, 20000], 4⟩ 3
                    (by simp [generateBlogImage, genGo, h0, hr0, h1, hr1, h2,
                      hr2, h3, hr3])
                    (by omega) rfl (by simp [List.range_succ])
                    (by intro j hj; interval_cases j <;>
                      simp [attemptRL, h0, hr0, h1, hr1, h2, hr2])
                    (fun _ _ _ => rfl)
                    (fun hA => by rw [h3] at hA; simp [attemptRL, hr3] at hA)
                | true =>
                  rcases h4 : call 4 with ⟨m4, d4⟩ | _ | e4
                  · exact c3_leaf compress call
                      ⟨some (compress (buildDataUri m4 d4)),
                       [5000, 10000, 20000, 40000], 5⟩ 4
                      (by simp [generateBlogImage, genGo, h0, hr0, h1, hr1,
                        h2, hr2, h3, hr3, h4])
                      (by omega) rfl (by simp [List.range_succ])
                      (by intro j hj; interval_cases j <;>
                        simp [attemptRL, h0, hr0, h1, hr1, h2, hr2, h3, hr3])
                      (fun e hc hrl => by rw [h4] at hc; simp at hc)
                      (fun hA => by rw [h4] at hA; simp [attemptRL] at hA)
                  · exact c3_leaf compress call
                      ⟨none, [5000, 10000, 20000, 40000], 5⟩ 4
                      (by simp [generateBlogImage, genGo, h0, hr0, h1, hr1,
                        h2, hr2, h3, hr3, h4])
                      (by omega) rfl (by simp [List.range_succ])
                      (by intro j hj; interval_cases j <;>
                        simp [attemptRL, h0, hr0, h1, hr1, h2, hr2, h3, hr3])
                      (fun _ _ _ => rfl)
                      (fun hA => by rw [h4] at hA; simp [attemptRL] at hA)
                  · cases hr4 : isRateLimit e4 with
                    | false =>
                      exact c3_leaf compress call
                        ⟨none, [5000, 10000, 20000, 40000], 5⟩ 4
                        (by simp [generateBlogImage, genGo, h0, hr0, h1, hr1,
                          h2, hr2, h3, hr3, h4, hr4])
                        (by omega) rfl (by simp [List.range_succ])
                        (by intro j hj; interval_cases j <;>
                          simp [attemptRL, h0, hr0, h1, hr1, h2, hr2, h3, hr3])
                        (fun _ _ _ => rfl)
                        (fun hA => by
                          rw [h4] at hA
                          simp [attemptRL, hr4] at hA)
                    | true =>
                      exact c3_leaf compress call
                        ⟨none, [5000, 10000, 20000, 40000], 5⟩ 4
                        (by simp [generateBlogImage, genGo, h0, hr0, h1, hr1,
                          h2, hr2, h3, hr3, h4, hr4])
                        (by omega) rfl (by simp [List.range_succ])
                        (by intro j hj; interval_cases j <;>
                          simp [attemptRL, h0, hr0, h1, hr1, h2, hr2, h3, hr3])
                        (fun _ _ _ => rfl)
                        (fun _ => ⟨rfl, rfl⟩)

/-- Witness for C3, at the oracle whose every call throws a status-429
error: 5 attempts, the full wait sequence, a null result. -/
theorem c3_retry_policy_witness :
    (∀ j, j < 5 → attemptRL (exCallRL j) = true) ∧
    (generateBlogImage id exCallRL).result = none ∧
    (generateBlogImage id exCallRL).waits = [5000, 10000, 20000, 40000] := by
  have h := (c3_retry_policy id exCallRL).2.2.2.2 (by decide)
  exact ⟨by decide, h.1, h.2⟩

/-! ### Claim C8 -/

theorem natStr_ne_nil (n : ℕ) : natStr n ≠ [] := by
  rw [natStr, natStrGo]
  by_cases h : n < 10
  · rw [if_pos h]; simp
  · rw [if_neg h]
    exact List.append_ne_nil_of_right_ne_nil _ (by simp)

theorem natStr_isEmpty (n : ℕ) : (natStr n).isEmpty = false := by
  cases h : natStr n with
  | nil => exact absurd h (natStr_ne_nil n)
  | cons c cs => rfl

theorem wxr_chunks_eq (env : WxrEnv) (raw kw cat : Str) :
    (handleDownloadWxrXml env raw kw cat).attachmentChunks
      = (wxrLoop env
          (List.enumFrom 0 (findImageRefs (parseArticleData raw kw).cleanBody))
          ((parseArticleData raw kw).cleanBody, [], [])).2.2 := by
  dsimp only [handleDownloadWxrXml]

theorem wxr_fid_eq (env : WxrEnv) (raw kw cat : Str) :
    (handleDownloadWxrXml env raw kw cat).featuredImageId
      = (wxrLoop env
          (List.enumFrom 0 (findImageRefs (parseArticleData raw kw).cleanBody))
          ((parseArticleData raw kw).cleanBody, [], [])).2.1 := by
  dsimp only [handleDownloadWxrXml]

theorem wxr_body_eq (env : WxrEnv) (raw kw cat : Str) :
    (handleDownloadWxrXml env raw kw cat).optimizedBody
      = (wxrLoop env
          (List.enumFrom 0 (findImageRefs (parseArticleData raw kw).cleanBody))
          ((parseArticleData raw kw).cleanBody, [], [])).1 := by
  dsimp only [handleDownloadWxrXml]

theorem wxr_thumb_eq (env : WxrEnv) (raw kw cat : Str) :
    (handleDownloadWxrXml env raw kw cat).thumbnailBlock
      = (if (wxrLoop env
            (List.enumFrom 0 (findImageRefs (parseArticleData raw kw).cleanBody))
            ((parseArticleData raw kw).cleanBody, [], [])).2.1.isEmpty then []
         else thumbnailBlockXml (wxrLoop env
            (List.enumFrom 0 (findImageRefs (parseArticleData raw kw).cleanBody))
            ((parseArticleData raw kw).cleanBody, [], [])).2.1) := by
  dsimp only [handleDownloadWxrXml]

theorem wxrLoop_nil (env : WxrEnv) (acc : Str × Str × List Str) :
    wxrLoop env [] acc = acc := rfl

theorem wxrLoop_cons_featured (env : WxrEnv) (i : ℕ) (tag uri : Str)
    (ms : List (ℕ × ImageRef)) (body fid : Str) (chunks : List Str) :
    wxrLoop env ((i, ⟨tag, "FEATURED_IMAGE".data, uri⟩) :: ms)
      (body, fid, chunks)
      = wxrLoop env ms
          (replaceAll body tag [], natStr (env.postId + i + 1),
           chunks ++ [attachmentItemXml env "FEATURED_IMAGE".data
             (env.compress uri) (env.postId + i + 1)]) := rfl

/-- C8: WXR export of an article whose clean body embeds no data-URI image
emits no attachment item chunk and no thumbnail postmeta block, and leaves
the body unchanged (first conjunct).  WXR export of an article whose only
embedded image carries the `FEATURED_IMAGE` sentinel alt text emits exactly
one attachment item (with attachment id `postId + 1`), a thumbnail
postmeta block holding exactly that id, and a body from which the image
reference span was removed, so the rendered post body contains no inline
image markup (second conjunct; the side conditions pin the single
occurrence of the matched span). -/
theorem c8_wxr_items :
    (∀ env raw kw cat, findImageRefs (parseArticleData raw kw).cleanBody = [] →
      (handleDownloadWxrXml env raw kw cat).attachmentChunks = [] ∧
      (handleDownloadWxrXml env raw kw cat).featuredImageId = [] ∧
      (handleDownloadWxrXml env raw kw cat).thumbnailBlock = [] ∧
      (handleDownloadWxrXml env raw kw cat).optimizedBody
        = (parseArticleData raw kw).cleanBody) ∧
    (∀ env raw kw cat tag alt uri p q,
      findImageRefs (parseArticleData raw kw).cleanBody = [⟨tag, alt, uri⟩] →
      alt = "FEATURED_IMAGE".data →
      splitOnce (parseArticleData raw kw).cleanBody tag = some (p, q) →
      containsSub q tag = false →
      (handleDownloadWxrXml env raw kw cat).featuredImageId
        = natStr (env.postId + 1) ∧
      (handleDownloadWxrXml env raw kw cat).attachmentChunks
        = [attachmentItemXml env alt (env.compress uri) (env.postId + 1)] ∧
      (handleDownloadWxrXml env raw kw cat).thumbnailBlock
        = thumbnailBlockXml (natStr (env.postId + 1)) ∧
      (handleDownloadWxrXml env raw kw cat).optimizedBody = p ++ q) := by
  constructor
  · intro env raw kw cat hfind
    have h2 : wxrLoop env
        (List.enumFrom 0 (findImageRefs (parseArticleData raw kw).cleanBody))
        ((parseArticleData raw kw).cleanBody, [], [])
        = ((parseArticleData raw kw).cleanBody, [], []) := by
      rw [hfind]
      rfl
    refine ⟨?_, ?_, ?_, ?_⟩
    · rw [wxr_chunks_eq, h2]
    · rw [wxr_fid_eq, h2]
    · rw [wxr_thumb_eq, h2]
      simp
    · rw [wxr_body_eq, h2]
  · intro env raw kw cat tag alt uri p q hfind halt hsplit hnc
    subst halt
    have hrep2 : replaceAll (parseArticleData raw kw).cleanBody tag []
        = p ++ q := by
      simpa using replaceAll_of_single (r := ([] : Str)) hsplit hnc
    have h2 : wxrLoop env
        (List.enumFrom 0 (findImageRefs (parseArticleData raw kw).cleanBody))
        ((parseArticleData raw kw).cleanBody, [], [])
        = (p ++ q, natStr (env.postId + 1),
           [attachmentItemXml env "FEATURED_IMAGE".data (env.compress uri)
             (env.postId + 1)]) := by
      rw [hfind]
      show wxrLoop env [(0, ⟨tag, "FEATURED_IMAGE".data, uri⟩)]
        ((parseArticleData raw kw).cleanBody, [], []) = _
      have harith : env.postId + 0 + 1 = env.postId + 1 := by omega
      rw [wxrLoop_cons_featured, wxrLoop_nil, hrep2, harith, List.nil_append]
    refine ⟨?_, ?_, ?_, ?_⟩
    · rw [wxr_fid_eq, h2]
    · rw [wxr_chunks_eq, h2]
    · rw [wxr_thumb_eq, h2]
      simp [natStr_isEmpty]
    · rw [wxr_body_eq, h2]

/-- Witness for C8, at a featured-image-only article (second conjunct of
the claim theorem, the richer case). -/
theorem c8_wxr_items_witness :
    findImageRefs (parseArticleData exRawC8b "k".data).cleanBody
      = [⟨"![FEATURED_IMAGE](data:image/png;base64,AB)".data,
          "FEATURED_IMAGE".data, "data:image/png;base64,AB".data⟩] ∧
    (handleDownloadWxrXml exEnvC8 exRawC8b "k".data "Cat".data).featuredImageId
      = natStr 101 ∧
    (handleDownloadWxrXml exEnvC8 exRawC8b "k".data "Cat".data).attachmentChunks.length
      = 1 ∧
    (handleDownloadWxrXml exEnvC8 exRawC8b "k".data "Cat".data).thumbnailBlock
      = thumbnailBlockXml (natStr 101) ∧
    (handleDownloadWxrXml exEnvC8 exRawC8b "k".data "Cat".data).optimizedBody
      = "Before ".data ++ " After".data := by
  have h := c8_wxr_items.2 exEnvC8 exRawC8b "k".data "Cat".data
    "![FEATURED_IMAGE](data:image/png;base64,AB)".data
    "FEATURED_IMAGE".data "data:image/png;base64,AB".data
    "Before ".data " After".data (by decide) rfl (by decide) (by decide)
  exact ⟨by decide, h.1, by rw [h.2.1]; rfl, h.2.2.1, h.2.2.2⟩

/-! ### Claim C9 -/

theorem pkgLoop_char :
    ∀ parts k pre, pkgOk k pre parts = true →
      pkgLoop (List.enumFrom k (parts.map Prod.fst)) (pre ++ tailRaw parts)
        = (filesFrom k (parts.map Prod.fst), pre ++ tailRw k parts) := by
  intro parts
  induction parts with
  | nil =>
    intro k pre h
    simp [pkgLoop, tailRaw, tailRw, filesFrom]
  | cons pt rest ih =>
    intro k pre h
    obtain ⟨r, t⟩ := pt
    simp only [pkgOk, Bool.and_eq_true, decide_eq_true_eq,
      Bool.not_eq_true'] at h
    obtain ⟨⟨hsp, hnc⟩, hrec⟩ := h
    have hcontent : pre ++ tailRaw ((r, t) :: rest)
        = pre ++ r.fullTag ++ (t ++ tailRaw rest) := by
      simp [tailRaw, List.append_assoc]
    have hrw := replaceAll_of_single (r := newRefFor k r) hsp hnc
    have hcontent2 : pre ++ newRefFor k r ++ (t ++ tailRaw rest)
        = (pre ++ newRefFor k r ++ t) ++ tailRaw rest := by
      simp [List.append_assoc]
    rw [hcontent, List.map_cons, List.enumFrom_cons, pkgLoop]
    rw [hrw, hcontent2, ih (k + 1) _ hrec]
    simp [filesFrom, tailRw, List.enumFrom_cons, List.append_assoc]

/-- C9: the package export writes one numbered image file
(`images/image-N.<ext>`, with the extension inferred from the declared MIME
subtype: webp, else png, else jpg) into the `images/` folder of the archive
for every image reference of the clean body, in order, and rewrites the
markdown so that each reference of the decomposition points at its numbered
file while all surrounding text is preserved; hence the bundled markdown
contains exactly as many image references as the clean body, each naming a
file that exists in the archive (entry `i` of the archive is the file its
rewritten reference `i` points at). -/
theorem c9_package_round_trip :
    ∀ raw kw t0 parts,
      findImageRefs (parseArticleData raw kw).cleanBody = parts.map Prod.fst →
      (parseArticleData raw kw).cleanBody = t0 ++ tailRaw parts →
      pkgOk 0 t0 parts = true →
      (handleDownloadPackage raw kw).markdown = t0 ++ tailRw 0 parts ∧
      (handleDownloadPackage raw kw).imageFiles
        = filesFrom 0 (parts.map Prod.fst) ∧
      (handleDownloadPackage raw kw).imageFiles.length = parts.length ∧
      (∀ i r, (parts.map Prod.fst)[i]? = some r →
        (handleDownloadPackage raw kw).imageFiles[i]?
          = some ("images/".data ++ imageFileName i r.uri, b64Content r.uri)) := by
  intro raw kw t0 parts hfind hdec hok
  have hloop := pkgLoop_char parts 0 t0 hok
  have hfind2 : findImageRefs (t0 ++ tailRaw parts) = parts.map Prod.fst := by
    rw [← hdec]
    exact hfind
  have hfields : (handleDownloadPackage raw kw).imageFiles
        = filesFrom 0 (parts.map Prod.fst) ∧
      (handleDownloadPackage raw kw).markdown = t0 ++ tailRw 0 parts := by
    constructor <;>
      simp [handleDownloadPackage, hdec, hfind2, hloop]
  refine ⟨hfields.2, hfields.1, ?_, ?_⟩
  · rw [hfields.1]
    simp [filesFrom]
  · intro i r hi
    rw [hfields.1]
    simp only [filesFrom, List.getElem?_map, List.getElem?_enumFrom, hi]
    simp

/-- Witness for C9 at a two-image article (png and jpeg). -/
theorem c9_package_round_trip_witness :
    findImageRefs (parseArticleData exRawC9 "k".data).cleanBody
      = exPartsC9.map Prod.fst ∧
    pkgOk 0 "T1 ".data exPartsC9 = true ∧
    (handleDownloadPackage exRawC9 "k".data).markdown
      = "T1 ".data ++ tailRw 0 exPartsC9 ∧
    (handleDownloadPackage exRawC9 "k".data).imageFiles.length = 2 := by
  have h := c9_package_round_trip exRawC9 "k".data "T1 ".data exPartsC9
    (by decide) (by decide) (by decide)
  exact ⟨by decide, by decide, h.1, by rw [h.2.2.1]; rfl⟩

end VietBai
